import Mathlib

/-!
Verification of the yt-transcript command-line tool (src/yt-transcript.py).

The program is modelled shallowly:

* `extract_video_id` embeds the Python function of the same name.  The three
  regular expressions it searches for are simple enough (a literal marker
  followed by exactly eleven identifier characters) that Python's
  left-to-right `re.search` is modelled by `reSearch`, which scans every
  start position of the input, trying the alternatives of the pattern in
  order at each position.  `re.fullmatch` of the identifier alphabet is
  modelled by a length-and-alphabet check.

* `summarize` and `main` are embedded as pure functions from the run
  configuration, the credential environment variable and the responses of
  the two external services to the ordered list of observable events the
  run produces (environment reads, network calls, file writes, console
  output, process exit).

Strings are modelled as `List Char`.
-/

set_option maxHeartbeats 1600000

namespace YtTranscript

/-- Membership in the identifier character class of the regexes,
Python `[a-zA-Z0-9_-]`. -/
def isIdChar (c : Char) : Bool :=
  decide (('a' ≤ c ∧ c ≤ 'z') ∨ ('A' ≤ c ∧ c ≤ 'Z') ∨ ('0' ≤ c ∧ c ≤ '9')) ||
    c == '_' || c == '-'

/-- The alternatives of the first regex, Python raw string
with the group (?:v=|/v/) before the capture. -/
def pat1 : List (List Char) := [['v', '='], ['/', 'v', '/']]

/-- The alternative of the second regex, the marker youtu.be/ . -/
def pat2 : List (List Char) := [['y', 'o', 'u', 't', 'u', '.', 'b', 'e', '/']]

/-- The alternative of the third regex, the marker shorts/ . -/
def pat3 : List (List Char) := [['s', 'h', 'o', 'r', 't', 's', '/']]

/-- The capture group of each regex: exactly eleven identifier characters,
read greedily from the front of `s`.  Returns the captured token. -/
def matchIdAt (s : List Char) : Option (List Char) :=
  let tok := s.take 11
  if tok.length = 11 ∧ tok.all isIdChar = true then some tok else none

/-- Try each alternative marker of a pattern at the current position, in
order; on a marker hit the capture group must also match, otherwise the
next alternative is tried (regex backtracking at a fixed position). -/
def tryPats : List (List Char) → List Char → Option (List Char)
  | [], _ => none
  | p :: ps, s =>
    if s.take p.length = p then
      match matchIdAt (s.drop p.length) with
      | some tok => some tok
      | none => tryPats ps s
    else tryPats ps s

/-- Python re.search: scan start positions left to right, first position
where the pattern matches wins. -/
def reSearch (pats : List (List Char)) : List Char → Option (List Char)
  | [] => none
  | c :: rest =>
    match tryPats pats (c :: rest) with
    | some tok => some tok
    | none => reSearch pats rest

/-- Embedding of extract_video_id: the three patterns are searched in
order; if none matches, the raw input is accepted only when it is itself
exactly eleven identifier characters (re.fullmatch); `none` models the
ValueError raised otherwise. -/
def extract_video_id (url : List Char) : Option (List Char) :=
  match reSearch pat1 url with
  | some tok => some tok
  | none =>
    match reSearch pat2 url with
    | some tok => some tok
    | none =>
      match reSearch pat3 url with
      | some tok => some tok
      | none =>
        if url.length = 11 ∧ url.all isIdChar = true then some url else none

/-! Basic search lemmas. -/

theorem tryPats_eq_none (ps : List (List Char)) (s : List Char)
    (h : ∀ p ∈ ps, s.take p.length ≠ p) : tryPats ps s = none := by
  induction ps with
  | nil => rfl
  | cons p ps ih =>
    rw [tryPats, if_neg (h p (List.mem_cons_self _ _))]
    exact ih fun q hq => h q (List.mem_cons_of_mem _ hq)

theorem reSearch_cons_none (pats : List (List Char)) (c : Char) (s : List Char)
    (h : tryPats pats (c :: s) = none) :
    reSearch pats (c :: s) = reSearch pats s := by
  rw [reSearch, h]

theorem reSearch_cons_some (pats : List (List Char)) (c : Char) (s t : List Char)
    (h : tryPats pats (c :: s) = some t) :
    reSearch pats (c :: s) = some t := by
  rw [reSearch, h]

/-- If within a concrete region `pre` no pattern alternative matches (when it
fits inside `pre`), and the alternatives that would spill over the boundary
also fail, then the search skips past `pre`. -/
theorem reSearch_append_clear (pats : List (List Char)) (pre rest : List Char)
    (hfit : ∀ i < pre.length, ∀ p ∈ pats, i + p.length ≤ pre.length →
      (pre.drop i).take p.length ≠ p)
    (hspill : ∀ i < pre.length, ∀ p ∈ pats, pre.length < i + p.length →
      ((pre.drop i) ++ rest).take p.length ≠ p) :
    reSearch pats (pre ++ rest) = reSearch pats rest := by
  induction pre with
  | nil => simp
  | cons c pre ih =>
    have h0 : tryPats pats (c :: (pre ++ rest)) = none := by
      apply tryPats_eq_none
      intro p hp
      rcases le_or_lt p.length (c :: pre).length with hle | hgt
      · have h1 := hfit 0 (by simp) p hp (by simpa using hle)
        intro hEq
        apply h1
        simp only [List.drop_zero]
        rw [← List.take_append_of_le_length hle, List.cons_append]
        exact hEq
      · have h2 := hspill 0 (by simp) p hp (by simpa using hgt)
        simp only [List.drop_zero, List.cons_append] at h2
        exact h2
    rw [List.cons_append, reSearch_cons_none _ _ _ h0]
    apply ih
    · intro i hi p hp hle
      have := hfit (i + 1) (by simp; omega) p hp (by simp; omega)
      simpa [List.drop_succ_cons] using this
    · intro i hi p hp hgt
      have := hspill (i + 1) (by simp; omega) p hp (by simp; omega)
      simpa [List.drop_succ_cons] using this

/-- The capture group succeeds on an eleven-character identifier token,
whatever follows it. -/
theorem matchIdAt_of (tok suf : List Char) (h11 : tok.length = 11)
    (hall : tok.all isIdChar = true) : matchIdAt (tok ++ suf) = some tok := by
  have ht : (tok ++ suf).take 11 = tok := by
    rw [← h11]; exact List.take_left tok suf
  rw [matchIdAt]
  simp only [ht]
  rw [if_pos ⟨h11, hall⟩]

/-- A take cannot equal a cons whose head differs. -/
theorem take_ne_cons_of_head_ne (c x : Char) (s xs : List Char) (n : ℕ)
    (hcx : c ≠ x) : (c :: s).take n ≠ x :: xs := by
  cases n with
  | zero => simp
  | succ m =>
    rw [List.take_succ_cons]
    intro h
    injection h with h1 _
    exact hcx h1

/-- If no pattern alternative ever matches inside a string all of whose
characters belong to the identifier alphabet (because every alternative
contains a character outside the alphabet), the search fails. -/
theorem reSearch_none_of_all_id (pats : List (List Char))
    (hbad : ∀ p ∈ pats, ∃ c, c ∈ p ∧ isIdChar c = false) :
    ∀ s : List Char, s.all isIdChar = true → reSearch pats s = none := by
  intro s
  induction s with
  | nil => intro _; rfl
  | cons a s ih =>
    intro hall
    have hall' : s.all isIdChar = true := by
      rw [List.all_cons] at hall
      exact (Bool.and_eq_true _ _).mp hall |>.2
    rw [reSearch_cons_none]
    · exact ih hall'
    · apply tryPats_eq_none
      intro p hp hEq
      obtain ⟨c, hcp, hbadc⟩ := hbad p hp
      rw [← hEq] at hcp
      have hcs : c ∈ a :: s := List.take_subset _ _ hcp
      have := List.all_eq_true.mp hall c hcs
      rw [hbadc] at this
      cases this

/-- Every alternative of every pattern contains a character outside the
identifier alphabet. -/
theorem pats_have_bad_char :
    (∀ p ∈ pat1, ∃ c, c ∈ p ∧ isIdChar c = false) ∧
    (∀ p ∈ pat2, ∃ c, c ∈ p ∧ isIdChar c = false) ∧
    (∀ p ∈ pat3, ∃ c, c ∈ p ∧ isIdChar c = false) := by
  refine ⟨?_, ?_, ?_⟩ <;> decide

/-- On a pure identifier token no pattern matches at all. -/
theorem extract_id_token (s : List Char) (h11 : s.length = 11)
    (hall : s.all isIdChar = true) : extract_video_id s = some s := by
  rw [extract_video_id]
  rw [reSearch_none_of_all_id pat1 pats_have_bad_char.1 s hall]
  rw [reSearch_none_of_all_id pat2 pats_have_bad_char.2.1 s hall]
  rw [reSearch_none_of_all_id pat3 pats_have_bad_char.2.2 s hall]
  rw [if_pos ⟨h11, hall⟩]

/-! Search behaviour on the canonical recognized URL shapes, with an
arbitrary embedded eleven-character token. -/

theorem reSearch_pat1_watch (tok suf : List Char) (h11 : tok.length = 11)
    (hall : tok.all isIdChar = true) :
    reSearch pat1 ("https://www.youtube.com/watch?v=".toList ++ (tok ++ suf))
      = some tok := by
  have hsplit : "https://www.youtube.com/watch?v=".toList
      = "https://www.youtube.com/watch?".toList ++ ['v', '='] := by decide
  rw [hsplit, List.append_assoc]
  rw [reSearch_append_clear pat1 _ _ (by decide) ?spill]
  case spill =>
    intro i hi p hp hgt
    simp only [String.toList, String.length] at hi hgt
    rcases (by simpa [pat1] using hp : p = ['v', '='] ∨ p = ['/', 'v', '/']) with rfl | rfl
    · simp only [List.length_cons, List.length_nil] at hgt
      have hge : 29 ≤ i := by omega
      have hlt : i < 30 := by simpa using hi
      interval_cases i
      rw [show ("https://www.youtube.com/watch?".toList).drop 29 = ['?'] from by decide]
      simp only [List.cons_append, List.nil_append]
      exact take_ne_cons_of_head_ne _ _ _ _ _ (by decide)
    · simp only [List.length_cons, List.length_nil] at hgt
      have hge : 28 ≤ i := by omega
      have hlt : i < 30 := by simpa using hi
      interval_cases i
      · rw [show ("https://www.youtube.com/watch?".toList).drop 28 = ['h', '?'] from by decide]
        simp only [List.cons_append, List.nil_append]
        exact take_ne_cons_of_head_ne _ _ _ _ _ (by decide)
      · rw [show ("https://www.youtube.com/watch?".toList).drop 29 = ['?'] from by decide]
        simp only [List.cons_append, List.nil_append]
        exact take_ne_cons_of_head_ne _ _ _ _ _ (by decide)
  · rw [show ((['v', '='] : List Char) ++ (tok ++ suf)) = 'v' :: '=' :: (tok ++ suf)
        from rfl]
    apply reSearch_cons_some
    rw [show pat1 = [['v', '='], ['/', 'v', '/']] from rfl]
    rw [tryPats]
    rw [if_pos (by simp)]
    rw [show (('v' :: '=' :: (tok ++ suf)).drop ((['v', '='] : List Char).length))
        = tok ++ suf from rfl]
    rw [matchIdAt_of tok suf h11 hall]

/-- Junction case: the marker /v/ cannot match where a slash is followed by
identifier characters only. -/
theorem slash_tok_take_ne (tok : List Char) (hall : tok.all isIdChar = true) :
    ('/' :: tok).take 3 ≠ ['/', 'v', '/'] := by
  intro h
  rw [List.take_succ_cons] at h
  injection h with _ h2
  have hmem : '/' ∈ tok := List.take_subset 2 tok (by rw [h2]; simp)
  have := List.all_eq_true.mp hall '/' hmem
  exact absurd this (by decide)

theorem reSearch_pat1_vslash (tok suf : List Char) (h11 : tok.length = 11)
    (hall : tok.all isIdChar = true) :
    reSearch pat1 ("https://www.youtube.com/v/".toList ++ (tok ++ suf))
      = some tok := by
  have hsplit : "https://www.youtube.com/v/".toList
      = "https://www.youtube.com".toList ++ ['/', 'v', '/'] := by decide
  rw [hsplit, List.append_assoc]
  rw [reSearch_append_clear pat1 _ _ (by decide) ?spill]
  case spill =>
    intro i hi p hp hgt
    rcases (by simpa [pat1] using hp : p = ['v', '='] ∨ p = ['/', 'v', '/']) with rfl | rfl
    · simp only [List.length_cons, List.length_nil] at hgt
      simp only [String.toList] at hi hgt
      have hge : 22 ≤ i := by simp at hgt; omega
      have hlt : i < 23 := by simpa using hi
      interval_cases i
      exact take_ne_cons_of_head_ne _ _ _ _ _ (by decide)
    · simp only [List.length_cons, List.length_nil] at hgt
      have hge : 21 ≤ i := by simp at hgt; omega
      have hlt : i < 23 := by simpa using hi
      interval_cases i <;> exact take_ne_cons_of_head_ne _ _ _ _ _ (by decide)
  · rw [show ((['/', 'v', '/'] : List Char) ++ (tok ++ suf))
        = '/' :: 'v' :: '/' :: (tok ++ suf) from rfl]
    apply reSearch_cons_some
    rw [show pat1 = [['v', '='], ['/', 'v', '/']] from rfl]
    rw [tryPats]
    rw [if_neg (take_ne_cons_of_head_ne _ _ _ _ _ (by decide))]
    rw [tryPats]
    rw [if_pos (by simp)]
    rw [show (('/' :: 'v' :: '/' :: (tok ++ suf)).drop
        ((['/', 'v', '/'] : List Char).length)) = tok ++ suf from rfl]
    rw [matchIdAt_of tok suf h11 hall]

theorem reSearch_pat1_shortlink (tok : List Char)
    (hall : tok.all isIdChar = true) :
    reSearch pat1 ("https://youtu.be/".toList ++ tok) = none := by
  rw [reSearch_append_clear pat1 _ _ (by decide) ?spill]
  case spill =>
    intro i hi p hp hgt
    rcases (by simpa [pat1] using hp : p = ['v', '='] ∨ p = ['/', 'v', '/']) with rfl | rfl
    · simp only [List.length_cons, List.length_nil] at hgt
      have hge : 16 ≤ i := by simp at hgt; omega
      have hlt : i < 17 := by simpa using hi
      interval_cases i
      exact take_ne_cons_of_head_ne _ _ _ _ _ (by decide)
    · simp only [List.length_cons, List.length_nil] at hgt
      have hge : 15 ≤ i := by simp at hgt; omega
      have hlt : i < 17 := by simpa using hi
      interval_cases i
      · exact take_ne_cons_of_head_ne _ _ _ _ _ (by decide)
      · rw [show ("https://youtu.be/".toList).drop 16 = ['/'] from by decide]
        rw [show ((['/'] : List Char) ++ tok) = '/' :: tok from rfl]
        exact slash_tok_take_ne tok hall
  · exact reSearch_none_of_all_id pat1 pats_have_bad_char.1 tok hall

theorem reSearch_pat2_shortlink (tok : List Char) (h11 : tok.length = 11)
    (hall : tok.all isIdChar = true) :
    reSearch pat2 ("https://youtu.be/".toList ++ tok) = some tok := by
  have hsplit : "https://youtu.be/".toList
      = "https://".toList ++ ['y', 'o', 'u', 't', 'u', '.', 'b', 'e', '/'] := by decide
  rw [hsplit, List.append_assoc]
  rw [reSearch_append_clear pat2 _ _ (by decide) ?spill]
  case spill =>
    intro i hi p hp hgt
    rcases (by simpa [pat2] using hp :
      p = ['y', 'o', 'u', 't', 'u', '.', 'b', 'e', '/']) with rfl
    have hlt : i < 8 := by simpa using hi
    interval_cases i <;> exact take_ne_cons_of_head_ne _ _ _ _ _ (by decide)
  · rw [show ((['y', 'o', 'u', 't', 'u', '.', 'b', 'e', '/'] : List Char) ++ tok)
        = 'y' :: 'o' :: 'u' :: 't' :: 'u' :: '.' :: 'b' :: 'e' :: '/' :: tok from rfl]
    apply reSearch_cons_some
    rw [show pat2 = [['y', 'o', 'u', 't', 'u', '.', 'b', 'e', '/']] from rfl]
    rw [tryPats]
    rw [if_pos (by simp)]
    rw [show (('y' :: 'o' :: 'u' :: 't' :: 'u' :: '.' :: 'b' :: 'e' :: '/' :: tok).drop
        ((['y', 'o', 'u', 't', 'u', '.', 'b', 'e', '/'] : List Char).length)) = tok from rfl]
    have := matchIdAt_of tok [] h11 hall
    rw [List.append_nil] at this
    rw [this]

theorem reSearch_pat1_shorts (tok : List Char)
    (hall : tok.all isIdChar = true) :
    reSearch pat1 ("https://www.youtube.com/shorts/".toList ++ tok) = none := by
  rw [reSearch_append_clear pat1 _ _ (by decide) ?spill]
  case spill =>
    intro i hi p hp hgt
    rcases (by simpa [pat1] using hp : p = ['v', '='] ∨ p = ['/', 'v', '/']) with rfl | rfl
    · simp only [List.length_cons, List.length_nil] at hgt
      have hge : 30 ≤ i := by simp at hgt; omega
      have hlt : i < 31 := by simpa using hi
      interval_cases i
      exact take_ne_cons_of_head_ne _ _ _ _ _ (by decide)
    · simp only [List.length_cons, List.length_nil] at hgt
      have hge : 29 ≤ i := by simp at hgt; omega
      have hlt : i < 31 := by simpa using hi
      interval_cases i
      · exact take_ne_cons_of_head_ne _ _ _ _ _ (by decide)
      · rw [show ("https://www.youtube.com/shorts/".toList).drop 30 = ['/'] from by decide]
        rw [show ((['/'] : List Char) ++ tok) = '/' :: tok from rfl]
        exact slash_tok_take_ne tok hall
  · exact reSearch_none_of_all_id pat1 pats_have_bad_char.1 tok hall

theorem reSearch_pat2_shorts (tok : List Char)
    (hall : tok.all isIdChar = true) :
    reSearch pat2 ("https://www.youtube.com/shorts/".toList ++ tok) = none := by
  rw [reSearch_append_clear pat2 _ _ (by decide) ?spill]
  case spill =>
    intro i hi p hp hgt
    rcases (by simpa [pat2] using hp :
      p = ['y', 'o', 'u', 't', 'u', '.', 'b', 'e', '/']) with rfl
    simp only [List.length_cons, List.length_nil] at hgt
    have hge : 23 ≤ i := by simp at hgt; omega
    have hlt : i < 31 := by simpa using hi
    interval_cases i <;> exact take_ne_cons_of_head_ne _ _ _ _ _ (by decide)
  · exact reSearch_none_of_all_id pat2 pats_have_bad_char.2.1 tok hall

theorem reSearch_pat3_shorts (tok : List Char) (h11 : tok.length = 11)
    (hall : tok.all isIdChar = true) :
    reSearch pat3 ("https://www.youtube.com/shorts/".toList ++ tok) = some tok := by
  have hsplit : "https://www.youtube.com/shorts/".toList
      = "https://www.youtube.com/".toList ++ ['s', 'h', 'o', 'r', 't', 's', '/'] := by decide
  rw [hsplit, List.append_assoc]
  rw [reSearch_append_clear pat3 _ _ (by decide) ?spill]
  case spill =>
    intro i hi p hp hgt
    rcases (by simpa [pat3] using hp : p = ['s', 'h', 'o', 'r', 't', 's', '/']) with rfl
    simp only [List.length_cons, List.length_nil] at hgt
    have hge : 18 ≤ i := by simp at hgt; omega
    have hlt : i < 24 := by simpa using hi
    interval_cases i <;> exact take_ne_cons_of_head_ne _ _ _ _ _ (by decide)
  · rw [show ((['s', 'h', 'o', 'r', 't', 's', '/'] : List Char) ++ tok)
        = 's' :: 'h' :: 'o' :: 'r' :: 't' :: 's' :: '/' :: tok from rfl]
    apply reSearch_cons_some
    rw [show pat3 = [['s', 'h', 'o', 'r', 't', 's', '/']] from rfl]
    rw [tryPats]
    rw [if_pos (by simp)]
    rw [show (('s' :: 'h' :: 'o' :: 'r' :: 't' :: 's' :: '/' :: tok).drop
        ((['s', 'h', 'o', 'r', 't', 's', '/'] : List Char).length)) = tok from rfl]
    have := matchIdAt_of tok [] h11 hall
    rw [List.append_nil] at this
    rw [this]

/-! Shape of every value the search can return. -/

theorem matchIdAt_shape (s t : List Char) (h : matchIdAt s = some t) :
    t.length = 11 ∧ t.all isIdChar = true := by
  rw [matchIdAt] at h
  split at h
  · cases h
    assumption
  · cases h

theorem tryPats_shape (ps : List (List Char)) (s t : List Char)
    (h : tryPats ps s = some t) : t.length = 11 ∧ t.all isIdChar = true := by
  induction ps with
  | nil => cases h
  | cons p ps ih =>
    rw [tryPats] at h
    split at h
    · cases heq : matchIdAt (s.drop p.length) with
      | some u =>
        rw [heq] at h
        cases h
        exact matchIdAt_shape _ _ heq
      | none =>
        rw [heq] at h
        exact ih h
    · exact ih h

theorem reSearch_shape (pats : List (List Char)) (s t : List Char)
    (h : reSearch pats s = some t) : t.length = 11 ∧ t.all isIdChar = true := by
  induction s with
  | nil => cases h
  | cons c s ih =>
    rw [reSearch] at h
    cases heq : tryPats pats (c :: s) with
    | some u =>
      rw [heq] at h
      cases h
      exact tryPats_shape _ _ _ heq
    | none =>
      rw [heq] at h
      exact ih h

theorem extract_shape (url r : List Char) (h : extract_video_id url = some r) :
    r.length = 11 ∧ r.all isIdChar = true := by
  rw [extract_video_id] at h
  cases h1 : reSearch pat1 url with
  | some t =>
    rw [h1] at h
    cases h
    exact reSearch_shape _ _ _ h1
  | none =>
    rw [h1] at h
    cases h2 : reSearch pat2 url with
    | some t =>
      rw [h2] at h
      cases h
      exact reSearch_shape _ _ _ h2
    | none =>
      rw [h2] at h
      cases h3 : reSearch pat3 url with
      | some t =>
        rw [h3] at h
        cases h
        exact reSearch_shape _ _ _ h3
      | none =>
        rw [h3] at h
        by_cases hc : url.length = 11 ∧ url.all isIdChar = true
        · rw [if_pos hc] at h
          cases h
          exact hc
        · rw [if_neg hc] at h
          cases h

/-- C1: for every eleven-character token over the identifier alphabet, the
extractor applied to a watch-style URL (marker v= or /v/, any suffix), a
short-link URL or a shorts URL embedding the token returns exactly that
token. -/
theorem c1_recognized_url_shapes (tok suf : List Char) (h11 : tok.length = 11)
    (hall : tok.all isIdChar = true) :
    extract_video_id ("https://www.youtube.com/watch?v=".toList ++ (tok ++ suf))
        = some tok ∧
    extract_video_id ("https://www.youtube.com/v/".toList ++ (tok ++ suf))
        = some tok ∧
    extract_video_id ("https://youtu.be/".toList ++ tok) = some tok ∧
    extract_video_id ("https://www.youtube.com/shorts/".toList ++ tok) = some tok := by
  refine ⟨?_, ?_, ?_, ?_⟩
  · rw [extract_video_id, reSearch_pat1_watch tok suf h11 hall]
  · rw [extract_video_id, reSearch_pat1_vslash tok suf h11 hall]
  · rw [extract_video_id, reSearch_pat1_shortlink tok hall,
      reSearch_pat2_shortlink tok h11 hall]
  · rw [extract_video_id, reSearch_pat1_shorts tok hall,
      reSearch_pat2_shorts tok hall, reSearch_pat3_shorts tok h11 hall]

/-- Witness for C1 at the concrete token dQw4w9WgXcQ with a concrete query
suffix. -/
theorem c1_recognized_url_shapes_witness :
    extract_video_id ("https://www.youtube.com/watch?v=".toList
        ++ ("dQw4w9WgXcQ".toList ++ "&t=42s".toList)) = some "dQw4w9WgXcQ".toList ∧
    extract_video_id ("https://www.youtube.com/v/".toList
        ++ ("dQw4w9WgXcQ".toList ++ "&t=42s".toList)) = some "dQw4w9WgXcQ".toList ∧
    extract_video_id ("https://youtu.be/".toList ++ "dQw4w9WgXcQ".toList)
        = some "dQw4w9WgXcQ".toList ∧
    extract_video_id ("https://www.youtube.com/shorts/".toList ++ "dQw4w9WgXcQ".toList)
        = some "dQw4w9WgXcQ".toList :=
  c1_recognized_url_shapes "dQw4w9WgXcQ".toList "&t=42s".toList (by decide) (by decide)

/-- C2: a bare eleven-character identifier-alphabet token is returned
unchanged, and any other string on which no URL pattern matches and which is
not itself a well-formed identifier is rejected (the ValueError branch,
modelled by `none`). -/
theorem c2_bare_strings (s : List Char) :
    (s.length = 11 → s.all isIdChar = true → extract_video_id s = some s) ∧
    (reSearch pat1 s = none → reSearch pat2 s = none → reSearch pat3 s = none →
      ¬(s.length = 11 ∧ s.all isIdChar = true) → extract_video_id s = none) := by
  constructor
  · intro h11 hall
    exact extract_id_token s h11 hall
  · intro h1 h2 h3 hnot
    rw [extract_video_id, h1, h2, h3, if_neg hnot]

/-- Witness for C2: a bare token is accepted, and a short garbage string is
rejected. -/
theorem c2_bare_strings_witness :
    extract_video_id "dQw4w9WgXcQ".toList = some "dQw4w9WgXcQ".toList ∧
    extract_video_id "hello".toList = none :=
  ⟨(c2_bare_strings "dQw4w9WgXcQ".toList).1 (by decide) (by decide),
   (c2_bare_strings "hello".toList).2 (by decide) (by decide) (by decide) (by decide)⟩

/-- C9: pattern matching is substring search anywhere in the input with the
three patterns tried in a fixed order: an input that is neither a recognized
URL nor a bare identifier still yields a token when it contains the v=
marker, and the v= pattern beats a youtu.be marker appearing earlier in the
string. -/
theorem c9_substring_search_order :
    extract_video_id "!!v=abcdefghijk!!".toList = some "abcdefghijk".toList ∧
    ("!!v=abcdefghijk!!".toList.all isIdChar = false ∧
      "!!v=abcdefghijk!!".toList.length ≠ 11) ∧
    extract_video_id "https://youtu.be/aaaaaaaaaaa?v=bbbbbbbbbbb".toList
      = some "bbbbbbbbbbb".toList := by
  refine ⟨by decide, ⟨by decide, by decide⟩, by decide⟩

/-! Embedding of summarize and main.  A run is modelled as the ordered list
of observable events it produces.  The responses of the two external
services (transcript text, completion text) are parameters, since the
services themselves are outside the program. -/

/-- Observable events of a run, in program order. -/
inductive Event where
  | envRead (name : List Char)
  | mkdirP (dir : List Char)
  | netFetch (videoId : List Char)
  | netComplete (model userMsg : List Char)
  | fileWrite (dir fileName content : List Char)
  | printOut (line : List Char)
  | printErr (line : List Char)
  | exited (code : ℕ)
deriving DecidableEq

/-- The apostrophe character (kept out of string literals). -/
def apos : Char := Char.ofNat 39

/-- Name of the credential environment variable. -/
def apiKeyName : List Char := "ANTHROPIC_API_KEY".toList

/-- First line printed to stderr when the credential is missing. -/
def errNoKey1 : List Char :=
  "Error: ANTHROPIC_API_KEY environment variable not set.".toList

/-- Second line printed to stderr when the credential is missing. -/
def errNoKey2 : List Char :=
  "Set it with: export ANTHROPIC_API_KEY=".toList ++ [apos]
    ++ "sk-ant-...".toList ++ [apos]

/-- Part of the focused user message before the verbatim prompt. -/
def focusMsgA : List Char :=
  "Here is a YouTube video transcript. The user has a specific request:\n\n\"".toList

/-- Part of the focused user message between the prompt and the transcript. -/
def focusMsgB : List Char :=
  ("\"\n\nAnswer their request thoroughly based on the transcript. "
    ++ "Use headings and bullet points for readability.\n\nTranscript:\n").toList

/-- The default general-summary instruction, up to the transcript. -/
def defaultMsgA : List Char :=
  ("Summarize this YouTube video transcript. Produce a clear, "
    ++ "well-structured summary that captures all the key points, "
    ++ "arguments, and conclusions. Use headings and bullet points "
    ++ "for readability. The summary should be thorough enough that "
    ++ "someone who hasn").toList ++ [apos]
    ++ "t watched the video understands the full content.\n\nTranscript:\n".toList

/-- The user message sent to the completion service: the focused
instruction with the prompt verbatim when the prompt is non-empty (Python
truthiness), the default instruction otherwise; in both cases the
(already truncated) transcript follows. -/
def user_msg (prompt truncated : List Char) : List Char :=
  if prompt ≠ [] then focusMsgA ++ prompt ++ focusMsgB ++ truncated
  else defaultMsgA ++ truncated

/-- Embedding of summarize: reads the credential from the environment;
when it is unset or empty, prints two error lines and exits with status 1
(no completion call); otherwise truncates the transcript to its first
100000 characters, builds the user message and performs one completion
call.  Returns the events together with the returned completion text. -/
def summarize (apiKey : Option (List Char))
    (completion transcript prompt model : List Char) :
    List Event × Option (List Char) :=
  let missing : List Event :=
    [Event.envRead apiKeyName, Event.printErr errNoKey1,
     Event.printErr errNoKey2, Event.exited 1]
  match apiKey with
  | none => (missing, none)
  | some k =>
    if k = [] then (missing, none)
    else
      let truncated := transcript.take 100000
      ([Event.envRead apiKeyName,
        Event.netComplete model (user_msg prompt truncated)], some completion)

/-- Resolved command-line configuration. -/
structure Args where
  url : List Char
  prompt : Option (List Char)
  output_dir : List Char
  model : List Char
  no_transcript : Bool

/-- Default model identifier. -/
def defaultModel : List Char := "claude-haiku-4-5-20251001".toList

/-- Name of the transcript output file. -/
def transcriptFileName (vid : List Char) : List Char :=
  "transcript-".toList ++ vid ++ ".txt".toList

/-- Name of the summary output file. -/
def summaryFileName (vid : List Char) : List Char :=
  "summary-".toList ++ vid ++ ".txt".toList

/-- Path join as printed by pathlib for the cases the tool uses: joining
to the current directory leaves the file name bare. -/
def pathJoin (dir name : List Char) : List Char :=
  if dir = ".".toList then name else dir ++ "/".toList ++ name

/-- Decimal rendering of a natural number, as Python str on an int. -/
def natChars (n : ℕ) : List Char := (Nat.repr n).toList

/-- Progress line printed after saving the transcript. -/
def savedTranscriptLine (outDir vid transcript : List Char) : List Char :=
  "Transcript saved: ".toList ++ pathJoin outDir (transcriptFileName vid)
    ++ "  (".toList ++ natChars transcript.length ++ " chars)".toList

/-- Progress line printed after saving the summary. -/
def savedSummaryLine (outDir vid summary : List Char) : List Char :=
  "Summary saved:    ".toList ++ pathJoin outDir (summaryFileName vid)
    ++ "  (".toList ++ natChars summary.length ++ " chars)".toList

/-- Embedding of main: extract the identifier (an uncaught ValueError is a
stderr line and a non-zero exit), create the output directory, fetch the
transcript, optionally write it, and when a prompt was supplied run
summarize and write its result. -/
def main (args : Args) (apiKey : Option (List Char))
    (transcript completion : List Char) : List Event :=
  match extract_video_id args.url with
  | none =>
    [Event.printErr ("Could not extract a YouTube video ID from: ".toList ++ args.url),
     Event.exited 1]
  | some vid =>
    let ev0 := [Event.mkdirP args.output_dir,
      Event.printOut ("Fetching transcript for video: ".toList ++ vid ++ " ...".toList),
      Event.netFetch vid]
    let ev1 := if args.no_transcript then [] else
      [Event.fileWrite args.output_dir (transcriptFileName vid) transcript,
       Event.printOut (savedTranscriptLine args.output_dir vid transcript)]
    match args.prompt with
    | none => ev0 ++ ev1 ++ [Event.exited 0]
    | some p =>
      let ev2 := [Event.printOut
        ("Summarizing with ".toList ++ args.model ++ " ...".toList)]
      match summarize apiKey completion transcript p args.model with
      | (sevs, none) => ev0 ++ ev1 ++ ev2 ++ sevs
      | (sevs, some summary) =>
        ev0 ++ ev1 ++ ev2 ++ sevs ++
        [Event.fileWrite args.output_dir (summaryFileName vid) summary,
         Event.printOut (savedSummaryLine args.output_dir vid summary),
         Event.exited 0]

/-- Exit status of a run: the code of the first exit event. -/
def exitCode : List Event → Option ℕ
  | [] => none
  | Event.exited c :: _ => some c
  | _ :: t => exitCode t

/-- Recognizer for completion-service calls. -/
def isCompleteCall : Event → Bool
  | Event.netComplete _ _ => true
  | _ => false

/-- Recognizer for network calls of any kind. -/
def isNetCall : Event → Bool
  | Event.netFetch _ => true
  | Event.netComplete _ _ => true
  | _ => false

/-- Recognizer for environment reads. -/
def isEnvRead : Event → Bool
  | Event.envRead _ => true
  | _ => false

/-- Recognizer for console output of either stream. -/
def isPrintEvent : Event → Bool
  | Event.printOut _ => true
  | Event.printErr _ => true
  | _ => false

/-- Shared helper: a run with summarization requested and the credential
unset or empty exits with status 1, prints to stderr, and never calls the
completion service. -/
theorem missing_key_run (args : Args) (apiKey : Option (List Char))
    (transcript completion : List Char)
    (hreq : args.prompt ≠ none) (hmiss : apiKey = none ∨ apiKey = some []) :
    exitCode (main args apiKey transcript completion) = some 1 ∧
    (∃ m, Event.printErr m ∈ main args apiKey transcript completion) ∧
    (∀ e ∈ main args apiKey transcript completion, isCompleteCall e = false) := by
  obtain ⟨p, hp⟩ : ∃ p, args.prompt = some p := by
    cases hP : args.prompt with
    | none => exact absurd hP hreq
    | some p => exact ⟨p, rfl⟩
  cases hext : extract_video_id args.url with
  | none =>
    refine ⟨by simp [main, hext, exitCode],
      ⟨"Could not extract a YouTube video ID from: ".toList ++ args.url,
        by simp [main, hext]⟩, ?_⟩
    intro e he
    simp [main, hext] at he
    rcases he with rfl | rfl <;> rfl
  | some vid =>
    have hsum : summarize apiKey completion transcript p args.model
        = ([Event.envRead apiKeyName, Event.printErr errNoKey1,
            Event.printErr errNoKey2, Event.exited 1], none) := by
      rcases hmiss with rfl | rfl <;> simp [summarize]
    cases hnt : args.no_transcript with
    | true =>
      refine ⟨by simp [main, hext, hp, hnt, hsum, exitCode],
        ⟨errNoKey1, by simp [main, hext, hp, hnt, hsum]⟩, ?_⟩
      intro e he
      simp [main, hext, hp, hnt, hsum] at he
      rcases he with rfl | rfl | rfl | rfl | rfl | rfl | rfl | rfl <;> rfl
    | false =>
      refine ⟨by simp [main, hext, hp, hnt, hsum, exitCode],
        ⟨errNoKey1, by simp [main, hext, hp, hnt, hsum]⟩, ?_⟩
      intro e he
      simp [main, hext, hp, hnt, hsum] at he
      rcases he with rfl | rfl | rfl | rfl | rfl | rfl | rfl | rfl | rfl | rfl <;> rfl

/-- C4: whenever summarization is requested (a prompt was supplied) and the
credential variable is unset or empty, the run exits with status 1, prints
an error to the error stream, and never calls the completion service. -/
theorem c4_missing_credential (args : Args) (apiKey : Option (List Char))
    (transcript completion : List Char)
    (hreq : args.prompt ≠ none) (hmiss : apiKey = none ∨ apiKey = some []) :
    exitCode (main args apiKey transcript completion) = some 1 ∧
    (∃ m, Event.printErr m ∈ main args apiKey transcript completion) ∧
    (∀ e ∈ main args apiKey transcript completion, isCompleteCall e = false) :=
  missing_key_run args apiKey transcript completion hreq hmiss

/-- Concrete configuration: bare identifier input, empty prompt supplied,
current directory, default model, transcript file enabled. -/
def cArgs : Args :=
  { url := "dQw4w9WgXcQ".toList, prompt := some [],
    output_dir := ".".toList, model := defaultModel, no_transcript := false }

/-- Witness for C4 at a concrete run with the credential unset. -/
theorem c4_missing_credential_witness :
    exitCode (main cArgs none "t".toList "c".toList) = some 1 ∧
    (∃ m, Event.printErr m ∈ main cArgs none "t".toList "c".toList) ∧
    (∀ e ∈ main cArgs none "t".toList "c".toList, isCompleteCall e = false) :=
  c4_missing_credential cArgs none "t".toList "c".toList
    (by simp [cArgs]) (Or.inl rfl)

/-- C5 counterexample: in the concrete run `cArgs` (summarization requested,
credential unset) the first network call, the transcript fetch at position 2
of the event list, happens strictly before the credential read at position
6; so a network call does precede the credential check. -/
theorem c5_counterexample_fetch_first :
    cArgs.prompt ≠ none ∧
    (main cArgs none "t".toList "c".toList).findIdx? isNetCall = some 2 ∧
    (main cArgs none "t".toList "c".toList).findIdx? isEnvRead = some 6 ∧
    exitCode (main cArgs none "t".toList "c".toList) = some 1 := by
  refine ⟨by simp [cArgs], by decide, by decide, by decide⟩

/-- C5 amended: when summarization is requested and the credential is
absent, the run fails with status 1, reports on the error stream, and no
completion-service call is ever attempted (the transcript fetch, however,
does precede the credential check); the credential is read only when
summarization is requested. -/
theorem c5_credential_check_timing (args : Args) (apiKey : Option (List Char))
    (transcript completion : List Char) :
    (args.prompt ≠ none → (apiKey = none ∨ apiKey = some []) →
      exitCode (main args apiKey transcript completion) = some 1 ∧
      (∃ m, Event.printErr m ∈ main args apiKey transcript completion) ∧
      (∀ e ∈ main args apiKey transcript completion, isCompleteCall e = false)) ∧
    (args.prompt = none →
      ∀ e ∈ main args apiKey transcript completion, isEnvRead e = false) := by
  constructor
  · intro h1 h2
    exact missing_key_run args apiKey transcript completion h1 h2
  · intro hp e he
    cases hext : extract_video_id args.url with
    | none =>
      simp [main, hext] at he
      rcases he with rfl | rfl <;> rfl
    | some vid =>
      cases hnt : args.no_transcript with
      | true =>
        simp [main, hext, hp, hnt] at he
        rcases he with rfl | rfl | rfl | rfl <;> rfl
      | false =>
        simp [main, hext, hp, hnt] at he
        rcases he with rfl | rfl | rfl | rfl | rfl | rfl <;> rfl

/-- Witness for C5 amended at a concrete run. -/
theorem c5_credential_check_timing_witness :
    exitCode (main cArgs none "t".toList "c".toList) = some 1 ∧
    (∃ m, Event.printErr m ∈ main cArgs none "t".toList "c".toList) ∧
    (∀ e ∈ main cArgs none "t".toList "c".toList, isCompleteCall e = false) :=
  (c5_credential_check_timing cArgs none "t".toList "c".toList).1
    (by simp [cArgs]) (Or.inl rfl)

/-- C3: with a valid credential, summarize performs exactly one completion
call whose message embeds precisely the first 100000 characters of the
transcript; a transcript of at most 100000 characters is embedded
unmodified; and no console output (in particular no warning) is emitted. -/
theorem c3_truncation (k completion transcript prompt model : List Char)
    (hk : k ≠ []) :
    (summarize (some k) completion transcript prompt model).1
      = [Event.envRead apiKeyName,
         Event.netComplete model (user_msg prompt (transcript.take 100000))] ∧
    (transcript.length ≤ 100000 →
      user_msg prompt (transcript.take 100000) = user_msg prompt transcript) ∧
    (∀ e ∈ (summarize (some k) completion transcript prompt model).1,
      isPrintEvent e = false) := by
  refine ⟨by simp [summarize, hk], ?_, ?_⟩
  · intro hle
    rw [List.take_of_length_le hle]
  · intro e he
    simp [summarize, hk] at he
    rcases he with rfl | rfl <;> rfl

/-- Witness for C3 at a concrete short transcript. -/
theorem c3_truncation_witness :
    (summarize (some "k".toList) "c".toList "t".toList [] defaultModel).1
      = [Event.envRead apiKeyName,
         Event.netComplete defaultModel (user_msg [] ("t".toList.take 100000))] ∧
    ("t".toList.length ≤ 100000 →
      user_msg [] ("t".toList.take 100000) = user_msg [] "t".toList) ∧
    (∀ e ∈ (summarize (some "k".toList) "c".toList "t".toList [] defaultModel).1,
      isPrintEvent e = false) :=
  c3_truncation "k".toList "c".toList "t".toList [] defaultModel (by decide)

/-- C6: when the prompt flag is supplied with a valid credential and the
identifier resolves, a completion call is made; the empty prompt selects
the default general-summary instruction, a non-empty prompt appears
verbatim inside the message; in both cases the summary file is written, so
summarization is enabled. -/
theorem c6_prompt_selection (args : Args) (k transcript completion p vid : List Char)
    (hp : args.prompt = some p) (hk : k ≠ [])
    (hext : extract_video_id args.url = some vid) :
    Event.netComplete args.model (user_msg p (transcript.take 100000))
        ∈ main args (some k) transcript completion ∧
    (p = [] → user_msg p (transcript.take 100000)
        = defaultMsgA ++ transcript.take 100000) ∧
    (p ≠ [] → p <:+: user_msg p (transcript.take 100000)) ∧
    Event.fileWrite args.output_dir (summaryFileName vid) completion
        ∈ main args (some k) transcript completion := by
  have hsum : summarize (some k) completion transcript p args.model
      = ([Event.envRead apiKeyName,
          Event.netComplete args.model (user_msg p (transcript.take 100000))],
         some completion) := by
    simp [summarize, hk]
  refine ⟨?_, ?_, ?_, ?_⟩
  · cases hnt : args.no_transcript <;> simp [main, hext, hp, hnt, hsum]
  · intro h0
    simp [user_msg, h0]
  · intro hne
    refine ⟨focusMsgA, focusMsgB ++ transcript.take 100000, ?_⟩
    simp [user_msg, hne, List.append_assoc]
  · cases hnt : args.no_transcript <;> simp [main, hext, hp, hnt, hsum]

/-- Witness for C6 at a concrete run with a non-empty prompt. -/
theorem c6_prompt_selection_witness :
    Event.netComplete defaultModel (user_msg "x".toList ("t".toList.take 100000))
        ∈ main { url := "dQw4w9WgXcQ".toList, prompt := some "x".toList,
                 output_dir := ".".toList, model := defaultModel,
                 no_transcript := false } (some "k".toList) "t".toList "c".toList ∧
    ("x".toList = [] → user_msg "x".toList ("t".toList.take 100000)
        = defaultMsgA ++ "t".toList.take 100000) ∧
    ("x".toList ≠ [] → "x".toList <:+: user_msg "x".toList ("t".toList.take 100000)) ∧
    Event.fileWrite ".".toList (summaryFileName "dQw4w9WgXcQ".toList) "c".toList
        ∈ main { url := "dQw4w9WgXcQ".toList, prompt := some "x".toList,
                 output_dir := ".".toList, model := defaultModel,
                 no_transcript := false } (some "k".toList) "t".toList "c".toList :=
  c6_prompt_selection _ "k".toList "t".toList "c".toList "x".toList
    "dQw4w9WgXcQ".toList rfl (by decide) (by decide)

/-- Transcript and summary file names never coincide. -/
theorem transcriptFileName_ne_summaryFileName (a b : List Char) :
    transcriptFileName a ≠ summaryFileName b := by
  intro h
  have h1 : (transcriptFileName a).head? = some 't' := rfl
  have h2 : (summaryFileName b).head? = some 's' := rfl
  rw [h, h2] at h1
  exact absurd h1 (by decide)

/-- C7: with the no-transcript flag set, no run ever writes a file with a
transcript file name; and when a prompt was supplied, the credential is
valid and the identifier resolves, the summary file is still written into
the output directory. -/
theorem c7_no_transcript_flag (args : Args) (apiKey : Option (List Char))
    (transcript completion : List Char) (hnt : args.no_transcript = true) :
    (∀ d id c, Event.fileWrite d (transcriptFileName id) c
        ∉ main args apiKey transcript completion) ∧
    (∀ p k vid, args.prompt = some p → apiKey = some k → k ≠ [] →
      extract_video_id args.url = some vid →
      Event.fileWrite args.output_dir (summaryFileName vid) completion
        ∈ main args apiKey transcript completion) := by
  constructor
  · intro d id c hmem
    cases hext : extract_video_id args.url with
    | none => simp [main, hext] at hmem
    | some vid =>
      cases hprompt : args.prompt with
      | none => simp [main, hext, hprompt, hnt] at hmem
      | some p =>
        match apiKey with
        | none =>
          simp [main, hext, hprompt, hnt, summarize] at hmem
        | some k =>
          by_cases hk : k = []
          · subst hk
            simp [main, hext, hprompt, hnt, summarize] at hmem
          · have hsum : summarize (some k) completion transcript p args.model
                = ([Event.envRead apiKeyName,
                    Event.netComplete args.model
                      (user_msg p (transcript.take 100000))], some completion) := by
              simp [summarize, hk]
            simp [main, hext, hprompt, hnt, hsum,
              transcriptFileName_ne_summaryFileName] at hmem
  · intro p k vid hp hk1 hkne hext
    subst hk1
    have hsum : summarize (some k) completion transcript p args.model
        = ([Event.envRead apiKeyName,
            Event.netComplete args.model
              (user_msg p (transcript.take 100000))], some completion) := by
      simp [summarize, hkne]
    simp [main, hext, hp, hnt, hsum]

/-- Witness for C7 at a concrete run: the summary file write is present. -/
theorem c7_no_transcript_flag_witness :
    Event.fileWrite "out".toList (summaryFileName "dQw4w9WgXcQ".toList) "c".toList
      ∈ main { url := "dQw4w9WgXcQ".toList, prompt := some "x".toList,
               output_dir := "out".toList, model := defaultModel,
               no_transcript := true } (some "k".toList) "t".toList "c".toList :=
  (c7_no_transcript_flag _ _ _ _ rfl).2 "x".toList "k".toList
    "dQw4w9WgXcQ".toList rfl rfl (by decide) (by decide)

/-- Configuration of the end-to-end scenario of C8. -/
def c8Args : Args :=
  { url := "https://youtu.be/dQw4w9WgXcQ".toList, prompt := none,
    output_dir := ".".toList, model := defaultModel, no_transcript := false }

/-- C8: on input https://youtu.be/dQw4w9WgXcQ with no summarization flag
the run creates exactly the transcript file with the fetched text, prints a
line containing the character count of the transcript, exits with status 0
and never calls the completion service. -/
theorem c8_transcript_only_run (apiKey : Option (List Char))
    (transcript completion : List Char) :
    main c8Args apiKey transcript completion
      = [Event.mkdirP ".".toList,
         Event.printOut ("Fetching transcript for video: ".toList
           ++ "dQw4w9WgXcQ".toList ++ " ...".toList),
         Event.netFetch "dQw4w9WgXcQ".toList,
         Event.fileWrite ".".toList
           (transcriptFileName "dQw4w9WgXcQ".toList) transcript,
         Event.printOut
           (savedTranscriptLine ".".toList "dQw4w9WgXcQ".toList transcript),
         Event.exited 0] ∧
    natChars transcript.length
      <:+: savedTranscriptLine ".".toList "dQw4w9WgXcQ".toList transcript ∧
    (∀ e ∈ main c8Args apiKey transcript completion, isCompleteCall e = false) := by
  have hext : extract_video_id "https://youtu.be/dQw4w9WgXcQ".toList
      = some "dQw4w9WgXcQ".toList := by decide
  have htr : main c8Args apiKey transcript completion
      = [Event.mkdirP ".".toList,
         Event.printOut ("Fetching transcript for video: ".toList
           ++ "dQw4w9WgXcQ".toList ++ " ...".toList),
         Event.netFetch "dQw4w9WgXcQ".toList,
         Event.fileWrite ".".toList
           (transcriptFileName "dQw4w9WgXcQ".toList) transcript,
         Event.printOut
           (savedTranscriptLine ".".toList "dQw4w9WgXcQ".toList transcript),
         Event.exited 0] := by
    simp only [main, c8Args]
    rw [hext]
    simp
  refine ⟨htr, ?_, ?_⟩
  · refine ⟨"Transcript saved: ".toList
        ++ pathJoin ".".toList (transcriptFileName "dQw4w9WgXcQ".toList)
        ++ "  (".toList, " chars)".toList, ?_⟩
    simp [savedTranscriptLine, List.append_assoc]
  · intro e he
    rw [htr] at he
    fin_cases he <;> rfl

/-- C10: whenever identifier extraction returns at all, the result is an
eleven-character token over the identifier alphabet; consequently every
file a run writes is named transcript-id.txt or summary-id.txt for a
well-formed identifier. -/
theorem c10_wellformed_identifier :
    (∀ url r, extract_video_id url = some r →
      r.length = 11 ∧ r.all isIdChar = true) ∧
    (∀ (args : Args) (apiKey : Option (List Char))
      (transcript completion d n c : List Char),
      Event.fileWrite d n c ∈ main args apiKey transcript completion →
      ∃ id, id.length = 11 ∧ id.all isIdChar = true ∧
        (n = transcriptFileName id ∨ n = summaryFileName id)) := by
  constructor
  · exact extract_shape
  · intro args apiKey transcript completion d n c hmem
    cases hext : extract_video_id args.url with
    | none => simp [main, hext] at hmem
    | some vid =>
      have hWF := extract_shape args.url vid hext
      refine ⟨vid, hWF.1, hWF.2, ?_⟩
      cases hprompt : args.prompt with
      | none =>
        cases hnt : args.no_transcript with
        | true => simp [main, hext, hprompt, hnt] at hmem
        | false =>
          simp [main, hext, hprompt, hnt] at hmem
          exact Or.inl hmem.2.1
      | some p =>
        have hKey : (∃ k, apiKey = some k ∧ k ≠ []) ∨
            apiKey = none ∨ apiKey = some [] := by
          match apiKey with
          | none => exact Or.inr (Or.inl rfl)
          | some k =>
            by_cases hk : k = []
            · subst hk
              exact Or.inr (Or.inr rfl)
            · exact Or.inl ⟨k, rfl, hk⟩
        rcases hKey with ⟨k, rfl, hk⟩ | hmiss
        · have hsum : summarize (some k) completion transcript p args.model
              = ([Event.envRead apiKeyName,
                  Event.netComplete args.model
                    (user_msg p (transcript.take 100000))], some completion) := by
            simp [summarize, hk]
          cases hnt : args.no_transcript with
          | true =>
            simp [main, hext, hprompt, hnt, hsum] at hmem
            exact Or.inr hmem.2.1
          | false =>
            simp [main, hext, hprompt, hnt, hsum] at hmem
            rcases hmem with h | h
            · exact Or.inl h.2.1
            · exact Or.inr h.2.1
        · have hsum : summarize apiKey completion transcript p args.model
              = ([Event.envRead apiKeyName, Event.printErr errNoKey1,
                  Event.printErr errNoKey2, Event.exited 1], none) := by
            rcases hmiss with rfl | rfl <;> simp [summarize]
          cases hnt : args.no_transcript with
          | true => simp [main, hext, hprompt, hnt, hsum] at hmem
          | false =>
            simp [main, hext, hprompt, hnt, hsum] at hmem
            exact Or.inl hmem.2.1

/-- Witness for C10 on a concrete URL. -/
theorem c10_wellformed_identifier_witness :
    ("dQw4w9WgXcQ".toList).length = 11 ∧
    ("dQw4w9WgXcQ".toList).all isIdChar = true :=
  c10_wellformed_identifier.1 "https://youtu.be/dQw4w9WgXcQ".toList
    "dQw4w9WgXcQ".toList (by decide)

end YtTranscript
